import Mathlib

/-!
# Verification of the task/queue reconciliation engine of nyaser-maps-downloader

Shallow embedding of the client-side task tracking logic in
`src/src/plugin/main.js`.  The JavaScript state (the `activeTasks` Map, the
`lastUpdateTimes` Map, the DOM children of the task container and of the two
queue lists, pending `setTimeout` removal timers, and the backend commands
issued via `invoke`) is modelled as an explicit record `St`.  Each Tauri event
listener becomes a pure transition function on `St`; a handler that can throw
(the JavaScript code can raise `TypeError`/`URIError`) returns `Except St St`
where `.error s` means the handler threw after having mutated the state to `s`.

JavaScript `Map` keys may be `undefined` (a destructured missing `taskId`), so
registry keys are `Option String` (`none` = the `undefined` key).

Status values are the literal strings the code writes into
`statusElement.textContent`; the spec names in parentheses:
`准备下载` (PENDING), `正在下载...` (DOWNLOADING), `下载完成` (DOWNLOADED),
`解压中` (EXTRACTING), `解压完成` (EXTRACTED), `解压失败` (EXTRACT_FAILED),
`下载失败` (FAILED), `已取消` (CANCELED), `下载中断` (STALLED).
-/

namespace NMD

/-- JavaScript `Map.prototype.get`: first (unique) binding of the key. -/
def jsMapGet {κ α : Type} [DecidableEq κ] : List (κ × α) → κ → Option α
  | [], _ => none
  | (k, v) :: rest, key => if k = key then some v else jsMapGet rest key

/-- JavaScript `Map.prototype.set`: update in place if the key exists
(insertion order is preserved), otherwise append. -/
def jsMapSet {κ α : Type} [DecidableEq κ] : List (κ × α) → κ → α → List (κ × α)
  | [], key, v => [(key, v)]
  | (k, w) :: rest, key, v =>
      if k = key then (k, v) :: rest else (k, w) :: jsMapSet rest key v

/-- JavaScript `Map.prototype.delete`. -/
def jsMapDelete {κ α : Type} [DecidableEq κ] : List (κ × α) → κ → List (κ × α)
  | [], _ => []
  | (k, v) :: rest, key =>
      if k = key then rest else (k, v) :: jsMapDelete rest key

/-- Apply `f` to the value bound to `key`, if present. -/
def jsMapUpdate {κ α : Type} [DecidableEq κ] : List (κ × α) → κ → (α → α) → List (κ × α)
  | [], _, _ => []
  | (k, v) :: rest, key, f =>
      if k = key then (k, f v) :: rest else (k, v) :: jsMapUpdate rest key f

/-- JavaScript truthiness of an optional string
(`undefined` and the empty string are falsy). -/
def strTruthy : Option String → Bool
  | none => false
  | some s => s ≠ ""

/-- JavaScript truthiness of an optional boolean. -/
def boolTruthy : Option Bool → Bool
  | some true => true
  | _ => false

/-- One hexadecimal digit, as accepted by `decodeURIComponent`. -/
def hexVal (c : Char) : Option Nat :=
  if '0' ≤ c ∧ c ≤ '9' then some (c.toNat - '0'.toNat)
  else if 'a' ≤ c ∧ c ≤ 'f' then some (c.toNat - 'a'.toNat + 10)
  else if 'A' ≤ c ∧ c ≤ 'F' then some (c.toNat - 'A'.toNat + 10)
  else none

/-- Modelled from the JavaScript builtin `decodeURIComponent`: percent-escape
decoding at the byte level; `none` models a thrown `URIError` (a `%` not
followed by two hex digits).  Multi-byte UTF-8 reassembly is not modelled —
each decoded byte becomes one character, which agrees with the builtin on all
ASCII-range escapes such as `%20`. -/
def decodeURIComponentAux : List Char → Option (List Char)
  | [] => some []
  | '%' :: h1 :: h2 :: rest =>
      match hexVal h1, hexVal h2 with
      | some a, some b =>
          (decodeURIComponentAux rest).map (Char.ofNat (16 * a + b) :: ·)
      | _, _ => none
  | '%' :: _ => none
  | c :: rest => (decodeURIComponentAux rest).map (c :: ·)

def jsDecodeURIComponent (s : String) : Option String :=
  (decodeURIComponentAux s.toList).map List.asString

/-- The pervasive pattern `filename ? decodeURIComponent(filename) : "未知文件"`:
falsy filename yields the placeholder, otherwise decode (which may throw). -/
def decodeDisplayName (filename : Option String) : Except Unit String :=
  match filename with
  | none => .ok "未知文件"
  | some f =>
      if f = "" then .ok "未知文件"
      else
        match jsDecodeURIComponent f with
        | some d => .ok d
        | none => .error ()

/-- A rendered task element (the bundle of DOM nodes returned by
`createTaskElement`).  Fields mirror the mutable presentation state the
handlers write to. -/
structure TaskElem where
  dataTaskId : Option String
  filename : String
  status : String
  progressWidth : String
  progressText : String
  progressBg : String
  rawOutput : String
  cancelPresent : Bool
  cancelDisabled : Bool
  cancelText : String
deriving Repr, DecidableEq

/-- Backend invocations issued by the tracked code paths. -/
inductive Cmd where
  | cancelDownload (taskId : Option String) (reason : Option String)
  | refreshDownloadQueue
  | refreshExtractQueue
deriving Repr, DecidableEq

/-- A child of one of the two queue lists. -/
inductive QEntry where
  | emptyHint
  | queueTask (displayName : String) (position : Nat)
deriving Repr, DecidableEq

/-- The plugin's mutable state. `dom` is the list of task elements attached to
`downloadsContainer` (by element id), `elems` the store of all created
elements, `activeTasks`/`lastUpdateTimes` the two global maps,
`pendingRemovals` the armed `setTimeout(removeTaskElement …)` timers as
(due time, taskId) pairs, `commands` the backend RPCs issued so far. -/
structure St where
  dom : List Nat
  elems : List (Nat × TaskElem)
  activeTasks : List (Option String × Nat)
  lastUpdateTimes : List (Option String × Nat)
  nextElemId : Nat
  pendingRemovals : List (Nat × Option String)
  queueListChildren : List QEntry
  queueContainerVisible : Bool
  extractQueueListChildren : List QEntry
  extractQueueContainerVisible : Bool
  commands : List Cmd
deriving Repr, DecidableEq

/-- The state right after the static initialisation: both queue lists hold
their "队列为空" hint, both queue containers are hidden, no tasks. -/
def initSt : St :=
  { dom := [], elems := [], activeTasks := [], lastUpdateTimes := [],
    nextElemId := 0, pendingRemovals := [],
    queueListChildren := [QEntry.emptyHint], queueContainerVisible := false,
    extractQueueListChildren := [QEntry.emptyHint],
    extractQueueContainerVisible := false, commands := [] }

/-- Mutate the element with id `i` in the element store. -/
def updateElemSt (st : St) (i : Nat) (f : TaskElem → TaskElem) : St :=
  { st with elems := jsMapUpdate st.elems i f }

/-- `createTaskElement(taskId, filename, initialStatus)` — builds the DOM
bundle, appends it to `downloadsContainer`, and returns it.  It does NOT
register the element in `activeTasks`; callers do that. -/
def createTaskElement (taskId : Option String) (filename : String)
    (initialStatus : String) (st : St) : St × Nat :=
  let i := st.nextElemId
  let e : TaskElem :=
    { dataTaskId := taskId, filename := filename, status := initialStatus,
      progressWidth := "", progressText := "0%", progressBg := "",
      rawOutput := "", cancelPresent := true, cancelDisabled := false,
      cancelText := "取消" }
  ({ st with
     nextElemId := i + 1, elems := jsMapSet st.elems i e,
     dom := st.dom ++ [i] }, i)

/-- `removeTaskElement(taskId)`: if registered, delete the task from both maps,
detach its element, and request a queue refresh.  The 300 ms fade-out timeout
inside the source is collapsed: detachment and the refresh call are performed
directly (the container-hiding style toggle is not modelled). -/
def removeTaskElement (taskId : Option String) (st : St) : St :=
  match jsMapGet st.activeTasks taskId with
  | none => st
  | some i =>
      { st with
        activeTasks := jsMapDelete st.activeTasks taskId,
        lastUpdateTimes := jsMapDelete st.lastUpdateTimes taskId,
        dom := st.dom.filter (· ≠ i),
        commands := st.commands ++ [Cmd.refreshDownloadQueue] }

/-- A pending `setTimeout(() => removeTaskElement(taskId), delay)` fires:
the callback body is exactly `removeTaskElement` (the stall-removal callback
additionally deletes `lastUpdateTimes[taskId]`, which `removeTaskElement`
already did). -/
def fireRemovalTimer (taskId : Option String) (st : St) : St :=
  removeTaskElement taskId st

/-! ## Event payloads (§6 of the spec; shapes as destructured by the code) -/

structure ProgressPayload where
  taskId : Option String := none
  progress : Option Nat := none
  filename : Option String := none
  rawOutput : Option String := none
deriving Repr, DecidableEq

structure CompletePayload where
  taskId : Option String := none
  filename : Option String := none
  success : Option Bool := none
  message : Option String := none
  saveonly : Option Bool := none
deriving Repr, DecidableEq

structure ExtractStartPayload where
  taskId : Option String := none
  filename : Option String := none
  extractDir : Option String := none
deriving Repr, DecidableEq

structure ExtractCompletePayload where
  taskId : Option String := none
  filename : Option String := none
  success : Option Bool := none
  message : Option String := none
deriving Repr, DecidableEq

structure TaskStartPayload where
  taskId : Option String := none
  filename : Option String := none
  url : Option String := none
deriving Repr, DecidableEq

structure FailedPayload where
  taskId : Option String := none
  filename : Option String := none
  error : Option String := none
deriving Repr, DecidableEq

structure CanceledPayload where
  taskId : Option String := none
  filename : Option String := none
deriving Repr, DecidableEq

/-! ## Event listeners -/

/-- The `download-progress` listener.  NOTE: unlike every other lifecycle
listener it destructures `event.payload` WITHOUT `|| {}` (an absent payload
throws a `TypeError`) and has no `if (!taskId) return` guard; it also calls
`progress.toFixed(1)` unguarded (`undefined.toFixed` throws).
`toFixed(1)` is rendered for the integral progress values modelled here as
`toString n ++ ".0"`. -/
def downloadProgressHandler (payload : Option ProgressPayload) (now : Nat)
    (st : St) : Except St St :=
  match payload with
  | none => .error st
  | some p =>
      match decodeDisplayName p.filename with
      | .error _ => .error st
      | .ok decodedFilename =>
          let (st, i) :=
            match jsMapGet st.activeTasks p.taskId with
            | some i => (st, i)
            | none =>
                let (st1, i) :=
                  createTaskElement p.taskId decodedFilename "正在下载..." st
                ({ st1 with activeTasks := jsMapSet st1.activeTasks p.taskId i }, i)
          let st :=
            { st with lastUpdateTimes := jsMapSet st.lastUpdateTimes p.taskId now }
          match p.progress with
          | none => .error st
          | some n =>
              let progressPercent := toString n ++ ".0"
              let st := updateElemSt st i fun e =>
                { e with progressWidth := progressPercent ++ "%",
                         progressText := progressPercent ++ "%",
                         status := "正在下载..." }
              let st :=
                match p.rawOutput with
                | some r =>
                    if r ≠ "" then updateElemSt st i fun e => { e with rawOutput := r }
                    else st
                | none => st
              .ok st

/-- The `download-complete` listener: `event.payload || {}`, drop on falsy
`taskId`; on success set `下载完成`/100 % and drop the cancel button; if
`saveonly` is truthy schedule removal 5000 ms out (regardless of success). -/
def downloadCompleteHandler (payload : Option CompletePayload) (now : Nat)
    (st : St) : Except St St :=
  let p := payload.getD {}
  if strTruthy p.taskId = false then .ok st
  else
    match decodeDisplayName p.filename with
    | .error _ => .error st
    | .ok _ =>
        match jsMapGet st.activeTasks p.taskId with
        | none => .ok st
        | some i =>
            let st :=
              if boolTruthy p.success then
                updateElemSt st i fun e =>
                  { e with status := "下载完成", progressWidth := "100%",
                           progressText := "100%", cancelPresent := false }
              else st
            let st :=
              if boolTruthy p.saveonly then
                { st with pendingRemovals := st.pendingRemovals ++ [(now + 5000, p.taskId)] }
              else st
            .ok st

/-- The `extract-start` listener: guarded on `taskId`; sets `解压中`. -/
def extractStartHandler (payload : Option ExtractStartPayload) (st : St) :
    Except St St :=
  let p := payload.getD {}
  if strTruthy p.taskId = false then .ok st
  else
    match decodeDisplayName p.filename with
    | .error _ => .error st
    | .ok _ =>
        match jsMapGet st.activeTasks p.taskId with
        | none => .ok st
        | some i =>
            .ok (updateElemSt st i fun e => { e with status := "解压中" })

/-- The `extract-complete` listener: guarded on `taskId`; sets `解压完成` on
success, `解压失败` plus red bar on failure, and in BOTH cases schedules
removal 5000 ms out (`setTimeout(…, 5e3)` sits after the if/else). -/
def extractCompleteHandler (payload : Option ExtractCompletePayload) (now : Nat)
    (st : St) : Except St St :=
  let p := payload.getD {}
  if strTruthy p.taskId = false then .ok st
  else
    match decodeDisplayName p.filename with
    | .error _ => .error st
    | .ok _ =>
        match jsMapGet st.activeTasks p.taskId with
        | none => .ok st
        | some i =>
            let st :=
              if boolTruthy p.success then
                updateElemSt st i fun e => { e with status := "解压完成" }
              else
                updateElemSt st i fun e =>
                  { e with status := "解压失败", progressBg := "#f44336" }
            .ok { st with pendingRemovals := st.pendingRemovals ++ [(now + 5000, p.taskId)] }

/-- The `download-task-start` listener: guarded on `taskId`; UNCONDITIONALLY
creates a fresh element and overwrites the `activeTasks` binding (a previous
element for the same id stays attached to the container), then requests a
queue refresh.  It never touches `lastUpdateTimes`. -/
def downloadTaskStartHandler (payload : Option TaskStartPayload) (st : St) :
    Except St St :=
  let p := payload.getD {}
  if strTruthy p.taskId = false then .ok st
  else
    match decodeDisplayName p.filename with
    | .error _ => .error st
    | .ok decodedFilename =>
        let (st, i) := createTaskElement p.taskId decodedFilename "准备下载" st
        let st := { st with activeTasks := jsMapSet st.activeTasks p.taskId i }
        .ok { st with commands := st.commands ++ [Cmd.refreshDownloadQueue] }

/-- The `download-failed` listener: guarded on `taskId`; if the task is
registered set `下载失败` + red bar and schedule removal 10000 ms out,
otherwise only flash the warning banner (not modelled); either way request a
queue refresh. -/
def downloadFailedHandler (payload : Option FailedPayload) (now : Nat)
    (st : St) : Except St St :=
  let p := payload.getD {}
  if strTruthy p.taskId = false then .ok st
  else
    match decodeDisplayName p.filename with
    | .error _ => .error st
    | .ok _ =>
        match jsMapGet st.activeTasks p.taskId with
        | some i =>
            let st := updateElemSt st i fun e =>
              { e with status := "下载失败", progressBg := "#f44336" }
            let st :=
              { st with pendingRemovals := st.pendingRemovals ++ [(now + 10000, p.taskId)] }
            .ok { st with commands := st.commands ++ [Cmd.refreshDownloadQueue] }
        | none =>
            .ok { st with commands := st.commands ++ [Cmd.refreshDownloadQueue] }

/-- The `download-canceled` listener: guarded on `taskId`; if registered set
`已取消` + grey bar, disable the cancel button, schedule removal 5000 ms out;
either way request a queue refresh.  (No `decodeURIComponent` call here.) -/
def downloadCanceledHandler (payload : Option CanceledPayload) (now : Nat)
    (st : St) : Except St St :=
  let p := payload.getD {}
  if strTruthy p.taskId = false then .ok st
  else
    match jsMapGet st.activeTasks p.taskId with
    | some i =>
        let st := updateElemSt st i fun e =>
          { e with status := "已取消", progressBg := "#9e9e9e",
                   cancelDisabled := true, cancelText := "已取消" }
        let st :=
          { st with pendingRemovals := st.pendingRemovals ++ [(now + 5000, p.taskId)] }
        .ok { st with commands := st.commands ++ [Cmd.refreshDownloadQueue] }
    | none =>
        .ok { st with commands := st.commands ++ [Cmd.refreshDownloadQueue] }

/-- Project the state out of a handler result (the state reached whether or
not the handler threw). -/
def resultState : Except St St → St
  | .ok s => s
  | .error s => s

/-! ## Liveness sweep (`checkStalledDownloads`, run by `setInterval(…, 5000)`) -/

/-- One iteration of the `activeTasks.forEach` body: if the task has a truthy
`lastUpdateTimes` entry older than 30 000 ms, set `下载中断` + orange bar,
invoke `cancel_download(taskId, reason="stalled")`, and schedule removal
5000 ms out.  No per-task guard flag exists: `activeTasks` and
`lastUpdateTimes` are left untouched. -/
def checkStalledStep (now : Nat) (st : St) (entry : Option String × Nat) : St :=
  match jsMapGet st.lastUpdateTimes entry.1 with
  | none => st
  | some t =>
      if t ≠ 0 ∧ now - t > 30000 then
        let st := updateElemSt st entry.2 fun e =>
          { e with status := "下载中断", progressBg := "#ff9800" }
        let st :=
          { st with commands := st.commands ++ [Cmd.cancelDownload entry.1 (some "stalled")] }
        { st with pendingRemovals := st.pendingRemovals ++ [(now + 5000, entry.1)] }
      else st

/-- `checkStalledDownloads()`: iterate the sweep body over `activeTasks`
(the body never mutates `activeTasks`, so folding over the initial list
coincides with the live `Map.forEach`). -/
def checkStalledDownloads (now : Nat) (st : St) : St :=
  st.activeTasks.foldl (checkStalledStep now) st

/-! ## Queue displays -/

/-- A `waiting_tasks` entry of the download queue snapshot. -/
structure WaitingTask where
  id : Option String := none
  filename : Option String := none
deriving Repr, DecidableEq

/-- An `active_tasks` entry (both snapshots). -/
structure ActiveTask where
  id : Option String := none
  filename : Option String := none
deriving Repr, DecidableEq

/-- A `waiting_tasks` entry of the extract queue snapshot
(displayed via `archive_name`). -/
structure ExtractWaitingTask where
  id : Option String := none
  archiveName : Option String := none
deriving Repr, DecidableEq

/-- The `waitingTasks.forEach` body of `updateQueueDisplay`: append one
`.nmd-queue-task` child per entry, position `index + 1` when the snapshot has
active tasks and `0` (rendered `即将开始`) otherwise.
`decodeURIComponent(task.filename)` may throw, aborting the whole handler with
the children appended so far still attached (`.error`).  The per-entry cancel
button and its click listener are presentation only.  Returns the new state
and the running count of appended children. -/
def renderWaitingList (hasActive : Bool) (idx : Nat) (tasks : List WaitingTask)
    (st : St) (muts : Nat) : Except St (St × Nat) :=
  match tasks with
  | [] => .ok (st, muts)
  | t :: rest =>
      match decodeDisplayName t.filename with
      | .error _ => .error st
      | .ok decodedFilename =>
          let position := if hasActive then idx + 1 else 0
          let st :=
            { st with queueListChildren :=
                st.queueListChildren ++ [QEntry.queueTask decodedFilename position] }
          renderWaitingList hasActive (idx + 1) rest st (muts + 1)

/-- The `activeTask.forEach` body of `updateQueueDisplay` (download pipeline
only): get-or-create a registry entry for the active id (fresh elements start
as `正在下载...`) and refresh `lastUpdateTimes[id] = Date.now()`.  The body is
wrapped in try/catch, so a `URIError` from `decodeURIComponent` skips just
that entry. -/
def syncActiveStep (now : Nat) (st : St) (t : ActiveTask) : St :=
  match decodeDisplayName t.filename with
  | .error _ => st
  | .ok decodedFilename =>
      let st :=
        match jsMapGet st.activeTasks t.id with
        | some _ => st
        | none =>
            let (st1, i) := createTaskElement t.id decodedFilename "正在下载..." st
            { st1 with activeTasks := jsMapSet st1.activeTasks t.id i }
      { st with lastUpdateTimes := jsMapSet st.lastUpdateTimes t.id now }

/-- `updateQueueDisplay(totalTasks, waitingTasks, activeTask)`: clear
`queueList` (`innerHTML = ""` — every existing child is removed), rebuild the
title/buttons (presentation), re-render every waiting entry from scratch, or
the `队列为空` hint when there are none, then run the active-list
synchronisation.  The second component counts the mutations applied to the
`queueList` children during this pass (removals by the clear plus appends). -/
def updateQueueDisplay (totalTasks : Nat) (waitingTasks : List WaitingTask)
    (activeTask : List ActiveTask) (now : Nat) (st : St) :
    Except St (St × Nat) :=
  let muts := st.queueListChildren.length
  let st := { st with queueListChildren := [] }
  let afterWaiting : Except St (St × Nat) :=
    if waitingTasks.length > 0 then
      renderWaitingList (!activeTask.isEmpty) 0 waitingTasks
        { st with queueContainerVisible := true } muts
    else
      .ok ({ st with queueContainerVisible := false,
                     queueListChildren := [QEntry.emptyHint] }, muts + 1)
  match afterWaiting with
  | .error st => .error st
  | .ok (st, muts) => .ok (activeTask.foldl (syncActiveStep now) st, muts)

/-- The `waitingTasks.forEach` body of `updateExtractQueueDisplay`:
`task.archive_name ? task.archive_name : "未知压缩包"` (no percent decoding,
so this loop cannot throw), positions as in the download pipeline. -/
def renderExtractWaitingList (hasActive : Bool) (idx : Nat)
    (tasks : List ExtractWaitingTask) (st : St) (muts : Nat) : St × Nat :=
  match tasks with
  | [] => (st, muts)
  | t :: rest =>
      let displayName :=
        match t.archiveName with
        | some s => if s = "" then "未知压缩包" else s
        | none => "未知压缩包"
      let position := if hasActive then idx + 1 else 0
      let st :=
        { st with extractQueueListChildren :=
            st.extractQueueListChildren ++ [QEntry.queueTask displayName position] }
      renderExtractWaitingList hasActive (idx + 1) rest st (muts + 1)

/-- `updateExtractQueueDisplay(totalTasks, waitingTasks, activeTask)`: same
clear-and-rebuild rendering as the download pipeline, but the function ends
after the waiting list — `activeTask` is consulted only for `length > 0`;
there is NO registry synthesis for the extract pipeline. -/
def updateExtractQueueDisplay (totalTasks : Nat)
    (waitingTasks : List ExtractWaitingTask) (activeTask : List ActiveTask)
    (st : St) : St × Nat :=
  let muts := st.extractQueueListChildren.length
  let st := { st with extractQueueListChildren := [] }
  if waitingTasks.length > 0 then
    renderExtractWaitingList (!activeTask.isEmpty) 0 waitingTasks
      { st with extractQueueContainerVisible := true } muts
  else
    ({ st with extractQueueContainerVisible := false,
               extractQueueListChildren := [QEntry.emptyHint] }, muts + 1)

/-! ## Download-link recognition and filename extraction -/

/-- One item of a (fixed, backtracking-free at the item level) regex sequence:
a literal, a single optional character (`s?`), a one-character class
(`(d|p)`), or a greedy nonempty class repetition (`.+`, `[^&]+`). -/
inductive Pat where
  | lit (s : List Char)
  | opt (c : Char)
  | cls (p : Char → Bool)
  | plus (p : Char → Bool)

/-- Match `p`-characters one or more times, then continue with `k`
(existential backtracking semantics, which is what the truthiness of
`String.prototype.match` observes). -/
def matchPlus (p : Char → Bool) (k : List Char → Bool) : List Char → Bool
  | [] => false
  | c :: cs => p c && (k cs || matchPlus p k cs)

/-- Match a sequence of items, then continue with `k`. -/
def matchSeq : List Pat → (List Char → Bool) → List Char → Bool
  | [], k, cs => k cs
  | .lit s :: rest, k, cs => s.isPrefixOf cs && matchSeq rest k (cs.drop s.length)
  | .opt c :: rest, k, cs =>
      (match cs with
       | c' :: cs' => (c' == c) && matchSeq rest k cs'
       | [] => false) || matchSeq rest k cs
  | .cls p :: rest, k, cs =>
      match cs with
      | c' :: cs' => p c' && matchSeq rest k cs'
      | [] => false
  | .plus p :: rest, k, cs => matchPlus p (matchSeq rest k) cs

/-- Unanchored search: try the matcher at every start position. -/
def searchFrom (m : List Char → Bool) : List Char → Bool
  | [] => m []
  | c :: cs => m (c :: cs) || searchFrom m cs

/-- The JavaScript regex `.` (no `s` flag): any character except the four
line terminators. -/
def dotChar (c : Char) : Bool :=
  !(c == '\n' || c == '\r' || c == Char.ofNat 8232 || c == Char.ofNat 8233)

/-- `isNormalLink`: truthiness of
`url.match(/http(s?):\/\/((maps\.nyase\.ru\/(d|p)\/.+)|(kcdn\.nyase\.ru\/.+))/)`.
Since only match existence is observed, the inner alternation is distributed
into two whole-pattern searches. -/
def isNormalLink (url : String) : Bool :=
  searchFrom
    (matchSeq
      [.lit "http".toList, .opt 's', .lit "://maps.nyase.ru/".toList,
       .cls (fun c => c == 'd' || c == 'p'), .lit "/".toList, .plus dotChar]
      (fun _ => true)) url.toList
  || searchFrom
    (matchSeq
      [.lit "http".toList, .opt 's', .lit "://kcdn.nyase.ru/".toList,
       .plus dotChar]
      (fun _ => true)) url.toList

/-- `isBaidupcsLink`: truthiness of
`url.match(/http(s?):\/\/.+\.baidupcs\.com\/file\/.+/)`. -/
def isBaidupcsLink (url : String) : Bool :=
  searchFrom
    (matchSeq
      [.lit "http".toList, .opt 's', .lit "://".toList, .plus dotChar,
       .lit ".baidupcs.com/file/".toList, .plus dotChar]
      (fun _ => true)) url.toList

/-- `isDownloadLink(url)`: `url && (isNormalLink(url) || isBaidupcsLink(url))`. -/
def isDownloadLink (url : String) : Bool :=
  url ≠ "" && (isNormalLink url || isBaidupcsLink url)

/-- The capture of `url.match(/&fin=([^&]+)/)`: the leftmost occurrence of
`&fin=` that is followed by at least one non-`&` character (the regex engine
keeps searching past occurrences where `[^&]+` cannot match), with the
greedy maximal run captured. -/
def findFinAux : List Char → Option (List Char)
  | [] => none
  | c :: cs =>
      if "&fin=".toList.isPrefixOf (c :: cs) then
        let run := ((c :: cs).drop 5).takeWhile (· ≠ '&')
        if run.isEmpty then findFinAux cs else some run
      else findFinAux cs

def findFin (url : String) : Option String :=
  (findFinAux url.toList).map List.asString

/-- `encoded_name.replaceAll("+", "%20")`. -/
def plusToPct (s : String) : String :=
  (s.toList.foldr
    (fun c acc => if c = '+' then '%' :: '2' :: '0' :: acc else c :: acc)
    []).asString

/-- `getFilenameFromBaidupcsLink(url)`: `.ok none` models `return null`,
`.error ()` a thrown `URIError`. -/
def getFilenameFromBaidupcsLink (url : String) : Except Unit (Option String) :=
  match findFin url with
  | none => .ok none
  | some encodedName =>
      let fixedEncoded := plusToPct encodedName
      if fixedEncoded ≠ "" then
        match jsDecodeURIComponent fixedEncoded with
        | some d => .ok (some d)
        | none => .error ()
      else
        match jsDecodeURIComponent encodedName with
        | some d => .ok (some d)
        | none => .error ()

/-- The capture of `url.match(/\/([^\/?]+)(\?.*)?$/)`: the leftmost `/`
followed by a nonempty maximal run of non-`/`, non-`?` characters after which
the string either ends or continues with `?` and line-terminator-free text to
the end.  (Shrinking the greedy run never helps this pattern: the character
after a shortened run is another run character, on which both `(\?.*)?`
alternatives fail, so only the maximal run is tried at each `/`.) -/
def findNormalNameAux : List Char → Option (List Char)
  | [] => none
  | c :: cs =>
      (if c = '/' then
        let run := cs.takeWhile fun c => c ≠ '/' && c ≠ '?'
        let rest := cs.drop run.length
        if !run.isEmpty &&
            (rest.isEmpty ||
              (rest.head? == some '?' && rest.tail.all dotChar)) then
          some run
        else none
      else none).orElse fun _ => findNormalNameAux cs

/-- `getFilenameFromNormalLink(url)`. -/
def getFilenameFromNormalLink (url : String) : Except Unit (Option String) :=
  match findNormalNameAux url.toList with
  | none => .ok none
  | some run =>
      match jsDecodeURIComponent run.asString with
      | some d => .ok (some d)
      | none => .error ()

/-- `getFilename(url)`: dispatch on the two link shapes, `null` otherwise. -/
def getFilename (url : String) : Except Unit (Option String) :=
  if isNormalLink url then getFilenameFromNormalLink url
  else if isBaidupcsLink url then getFilenameFromBaidupcsLink url
  else .ok none

/-! ## Map lemmas -/

theorem jsMapGet_set_self {κ α : Type} [DecidableEq κ] (l : List (κ × α))
    (k : κ) (v : α) : jsMapGet (jsMapSet l k v) k = some v := by
  induction l with
  | nil => simp [jsMapSet, jsMapGet]
  | cons hd t ih =>
      obtain ⟨k', v'⟩ := hd
      by_cases hk : k' = k <;> simp [jsMapSet, jsMapGet, hk, ih]

theorem jsMapGet_set_ne {κ α : Type} [DecidableEq κ] (l : List (κ × α))
    {k k' : κ} (v : α) (h : k' ≠ k) :
    jsMapGet (jsMapSet l k v) k' = jsMapGet l k' := by
  induction l with
  | nil => simp [jsMapSet, jsMapGet, Ne.symm h]
  | cons hd t ih =>
      obtain ⟨k₀, v₀⟩ := hd
      by_cases hk : k₀ = k
      · subst hk; simp [jsMapSet, jsMapGet, Ne.symm h]
      · simp [jsMapSet, jsMapGet, hk, ih]

theorem jsMapSet_self {κ α : Type} [DecidableEq κ] {l : List (κ × α)}
    {k : κ} {v : α} (h : jsMapGet l k = some v) : jsMapSet l k v = l := by
  induction l with
  | nil => simp [jsMapGet] at h
  | cons hd t ih =>
      obtain ⟨k₀, v₀⟩ := hd
      by_cases hk : k₀ = k
      · subst hk
        simp [jsMapGet] at h
        simp [jsMapSet, h]
      · simp [jsMapGet, hk] at h
        simp [jsMapSet, hk, ih h]

theorem jsMapGet_isSome_set {κ α : Type} [DecidableEq κ] (l : List (κ × α))
    {k' : κ} (k : κ) (v : α) (h : (jsMapGet l k').isSome) :
    (jsMapGet (jsMapSet l k v) k').isSome := by
  by_cases hk : k' = k
  · subst hk; simp [jsMapGet_set_self]
  · rwa [jsMapGet_set_ne l v hk]

theorem jsMapGet_eq_none_of_not_mem {κ α : Type} [DecidableEq κ]
    {l : List (κ × α)} {k : κ} (h : k ∉ l.map Prod.fst) :
    jsMapGet l k = none := by
  induction l with
  | nil => simp [jsMapGet]
  | cons hd t ih =>
      obtain ⟨k₀, v₀⟩ := hd
      rw [List.map_cons, List.mem_cons, not_or] at h
      simp [jsMapGet, Ne.symm h.1, ih h.2]

theorem jsMapGet_delete_self {κ α : Type} [DecidableEq κ]
    {l : List (κ × α)} (k : κ) (h : (l.map Prod.fst).Nodup) :
    jsMapGet (jsMapDelete l k) k = none := by
  induction l with
  | nil => simp [jsMapDelete, jsMapGet]
  | cons hd t ih =>
      obtain ⟨k₀, v₀⟩ := hd
      rw [List.map_cons, List.nodup_cons] at h
      by_cases hk : k₀ = k
      · subst hk
        simpa [jsMapDelete] using jsMapGet_eq_none_of_not_mem h.1
      · simp [jsMapDelete, hk, jsMapGet, ih h.2]

theorem jsMapGet_update_self {κ α : Type} [DecidableEq κ]
    {l : List (κ × α)} {k : κ} {v : α} (f : α → α)
    (h : jsMapGet l k = some v) :
    jsMapGet (jsMapUpdate l k f) k = some (f v) := by
  induction l with
  | nil => simp [jsMapGet] at h
  | cons hd t ih =>
      obtain ⟨k₀, v₀⟩ := hd
      by_cases hk : k₀ = k
      · subst hk
        simp [jsMapGet] at h
        simp [jsMapUpdate, jsMapGet, h]
      · simp [jsMapGet, hk] at h
        simp [jsMapUpdate, jsMapGet, hk, ih h]

theorem jsMapGet_update_ne {κ α : Type} [DecidableEq κ]
    (l : List (κ × α)) {k k' : κ} (f : α → α) (h : k' ≠ k) :
    jsMapGet (jsMapUpdate l k f) k' = jsMapGet l k' := by
  induction l with
  | nil => simp [jsMapUpdate]
  | cons hd t ih =>
      obtain ⟨k₀, v₀⟩ := hd
      by_cases hk : k₀ = k
      · subst hk; simp [jsMapUpdate, jsMapGet, Ne.symm h]
      · simp [jsMapUpdate, jsMapGet, hk, ih]

/-! ## Concrete scenario states -/

/-- A fresh session that has processed `download-task-start` for task `t1`. -/
def scnStarted : St :=
  resultState (downloadTaskStartHandler
    (some { taskId := some "t1", filename := some "a.7z" }) initSt)

/-- The displayed status of a task id: the `statusElement.textContent` of the
element the registry currently binds to the id. -/
def displayedStatus (st : St) (taskId : Option String) : Option String :=
  ((jsMapGet st.activeTasks taskId).bind (jsMapGet st.elems)).map TaskElem.status

/-! ## C1 — terminal-wins rule -/

/-- C1, counterexample.  Task `t1` enters the terminal status FAILED
(`下载失败`) via `download-failed`, yet a later `download-progress` event for
the same id (arriving within the 10 s grace window) overwrites the displayed
status back to DOWNLOADING (`正在下载...`): the claimed terminal-wins rule
does not exist, and the observed status sequence leaves a terminal status. -/
theorem c1_counterexample :
    displayedStatus (resultState (downloadFailedHandler
      (some { taskId := some "t1", error := some "boom" }) 1000 scnStarted))
      (some "t1") = some "下载失败" ∧
    displayedStatus (resultState (downloadProgressHandler
      (some { taskId := some "t1", progress := some 50,
              filename := some "a.7z" }) 2000
      (resultState (downloadFailedHandler
        (some { taskId := some "t1", error := some "boom" }) 1000 scnStarted))))
      (some "t1") = some "正在下载..." := by
  constructor <;> rfl

/-- C1, amended: the `download-progress` listener applies no terminal-wins
rule.  For any state in which the id is registered (whatever status its
element displays, terminal or not), a progress event unconditionally
rewrites the displayed status to `正在下载...` (DOWNLOADING); the registry
binding itself is left in place. -/
theorem c1_progress_overwrites_status (st : St) (tid : Option String)
    (i : Nat) (e : TaskElem) (n now : Nat) (fn ro : Option String)
    (name : String)
    (hA : jsMapGet st.activeTasks tid = some i)
    (hE : jsMapGet st.elems i = some e)
    (hF : decodeDisplayName fn = .ok name) :
    (resultState (downloadProgressHandler
        (some { taskId := tid, progress := some n, filename := fn,
                rawOutput := ro }) now st)).activeTasks = st.activeTasks ∧
    displayedStatus (resultState (downloadProgressHandler
        (some { taskId := tid, progress := some n, filename := fn,
                rawOutput := ro }) now st)) tid = some "正在下载..." := by
  cases ro with
  | none =>
      constructor <;>
        simp [downloadProgressHandler, hF, hA, resultState, displayedStatus,
          updateElemSt, jsMapGet_update_self _ hE]
  | some r =>
      by_cases hr : r = ""
      · subst hr
        constructor <;>
          simp [downloadProgressHandler, hF, hA, resultState, displayedStatus,
            updateElemSt, jsMapGet_update_self _ hE]
      · constructor <;>
          simp [downloadProgressHandler, hF, hA, hr, resultState,
            displayedStatus, updateElemSt,
            jsMapGet_update_self _ (jsMapGet_update_self _ hE)]

/-- C1, witness for the amended theorem: concrete instantiation on the
FAILED state of the counterexample scenario. -/
theorem c1_witness :
    (resultState (downloadProgressHandler
        (some { taskId := some "t1", progress := some 50,
                filename := some "a.7z", rawOutput := none }) 2000
        (resultState (downloadFailedHandler
          (some { taskId := some "t1", error := some "boom" }) 1000
          scnStarted)))).activeTasks =
      (resultState (downloadFailedHandler
        (some { taskId := some "t1", error := some "boom" }) 1000
        scnStarted)).activeTasks ∧
    displayedStatus (resultState (downloadProgressHandler
        (some { taskId := some "t1", progress := some 50,
                filename := some "a.7z", rawOutput := none }) 2000
        (resultState (downloadFailedHandler
          (some { taskId := some "t1", error := some "boom" }) 1000
          scnStarted)))) (some "t1") = some "正在下载..." :=
  c1_progress_overwrites_status _ _ 0 _ 50 2000 _ none _ rfl rfl rfl

/-! ## C5 — removal grace delays -/

/-- C5, counterexample.  A failed extraction (`extract-complete` with
`success:false`) puts the task in `解压失败` (EXTRACT_FAILED) but schedules
its removal 5000 ms out — the `setTimeout(…, 5e3)` sits after the
success/failure branch — not the claimed 10 s. -/
theorem c5_counterexample :
    (resultState (extractCompleteHandler
      (some { taskId := some "t1", success := some false }) 0
      scnStarted)).pendingRemovals = [(5000, some "t1")] ∧
    displayedStatus (resultState (extractCompleteHandler
      (some { taskId := some "t1", success := some false }) 0
      scnStarted)) (some "t1") = some "解压失败" := by
  constructor <;> rfl

/-- C5, amended: the grace delays actually scheduled are — save-only
completed download 5 s; extraction success 5 s; extraction FAILURE also 5 s
(not 10 s); failed download 10 s (and the handler itself removes nothing, so
the task stays rendered until that timer fires); canceled 5 s; a
non-save-only completed download schedules nothing. -/
theorem c5_removal_delays :
    (∀ (st : St) (now : Nat) (p : CompletePayload) (i : Nat) (name : String),
       strTruthy p.taskId = true →
       jsMapGet st.activeTasks p.taskId = some i →
       decodeDisplayName p.filename = .ok name →
       boolTruthy p.saveonly = true →
       (resultState (downloadCompleteHandler (some p) now st)).pendingRemovals
         = st.pendingRemovals ++ [(now + 5000, p.taskId)]) ∧
    (∀ (st : St) (now : Nat) (p : CompletePayload) (name : String),
       decodeDisplayName p.filename = .ok name →
       boolTruthy p.saveonly = false →
       (resultState (downloadCompleteHandler (some p) now st)).pendingRemovals
         = st.pendingRemovals) ∧
    (∀ (st : St) (now : Nat) (p : ExtractCompletePayload) (i : Nat) (name : String),
       strTruthy p.taskId = true →
       jsMapGet st.activeTasks p.taskId = some i →
       decodeDisplayName p.filename = .ok name →
       (resultState (extractCompleteHandler (some p) now st)).pendingRemovals
         = st.pendingRemovals ++ [(now + 5000, p.taskId)]) ∧
    (∀ (st : St) (now : Nat) (p : FailedPayload) (i : Nat) (name : String),
       strTruthy p.taskId = true →
       jsMapGet st.activeTasks p.taskId = some i →
       decodeDisplayName p.filename = .ok name →
       (resultState (downloadFailedHandler (some p) now st)).pendingRemovals
         = st.pendingRemovals ++ [(now + 10000, p.taskId)] ∧
       (resultState (downloadFailedHandler (some p) now st)).dom = st.dom) ∧
    (∀ (st : St) (now : Nat) (p : CanceledPayload) (i : Nat),
       strTruthy p.taskId = true →
       jsMapGet st.activeTasks p.taskId = some i →
       (resultState (downloadCanceledHandler (some p) now st)).pendingRemovals
         = st.pendingRemovals ++ [(now + 5000, p.taskId)]) := by
  refine ⟨?_, ?_, ?_, ?_, ?_⟩
  · intro st now p i name ht hi hn hs
    cases hb : boolTruthy p.success <;>
      simp [downloadCompleteHandler, ht, hi, hn, hs, hb, resultState,
        updateElemSt]
  · intro st now p name hn hs
    by_cases ht : strTruthy p.taskId = true
    · cases hi : jsMapGet st.activeTasks p.taskId <;>
        cases hb : boolTruthy p.success <;>
          simp [downloadCompleteHandler, ht, hi, hn, hs, hb, resultState,
            updateElemSt]
    · simp at ht
      simp [downloadCompleteHandler, ht, resultState]
  · intro st now p i name ht hi hn
    cases hs : boolTruthy p.success <;>
      simp [extractCompleteHandler, ht, hi, hn, hs, resultState, updateElemSt]
  · intro st now p i name ht hi hn
    constructor <;>
      simp [downloadFailedHandler, ht, hi, hn, resultState, updateElemSt]
  · intro st now p i ht hi
    simp [downloadCanceledHandler, ht, hi, resultState, updateElemSt]

/-- C5, witness: the amended delay facts at concrete states — a save-only
completed download and a failed download on the started scenario, and the
failed-extraction instance of the counterexample. -/
theorem c5_witness :
    (resultState (downloadCompleteHandler
      (some { taskId := some "t1", success := some true,
              saveonly := some true }) 7 scnStarted)).pendingRemovals
      = scnStarted.pendingRemovals ++ [(7 + 5000, some "t1")] ∧
    (resultState (downloadFailedHandler
      (some { taskId := some "t1", error := some "x" }) 9
      scnStarted)).pendingRemovals
      = scnStarted.pendingRemovals ++ [(9 + 10000, some "t1")] ∧
    (resultState (extractCompleteHandler
      (some { taskId := some "t1", success := some false }) 0
      scnStarted)).pendingRemovals
      = scnStarted.pendingRemovals ++ [(0 + 5000, some "t1")] :=
  ⟨c5_removal_delays.1 scnStarted 7
     { taskId := some "t1", success := some true, saveonly := some true }
     0 "未知文件" rfl rfl rfl rfl,
   (c5_removal_delays.2.2.2.1 scnStarted 9
     { taskId := some "t1", error := some "x" } 0 "未知文件" rfl rfl rfl).1,
   c5_removal_delays.2.2.1 scnStarted 0
     { taskId := some "t1", success := some false } 0 "未知文件" rfl rfl rfl⟩

/-! ## C7 — duplicate task-start -/

/-- C7, counterexample.  A second `download-task-start` for `t1` creates a
SECOND rendered element with `dataset.taskId = "t1"` (the first stays
attached to the container), and does not touch `lastUpdateTimes` — the exact
opposite of the claimed "refresh `lastUpdateTimestamp` only". -/
theorem c7_counterexample :
    ((resultState (downloadTaskStartHandler
        (some { taskId := some "t1", filename := some "a.7z" })
        scnStarted)).dom.filterMap
      (jsMapGet (resultState (downloadTaskStartHandler
        (some { taskId := some "t1", filename := some "a.7z" })
        scnStarted)).elems)).countP
      (fun e => e.dataTaskId == some "t1") = 2 ∧
    (resultState (downloadTaskStartHandler
      (some { taskId := some "t1", filename := some "a.7z" })
      scnStarted)).lastUpdateTimes = scnStarted.lastUpdateTimes := by
  constructor <;> rfl

/-- C7, amended: a duplicate `download-task-start` is not an idempotent
refresh.  It unconditionally creates a fresh element (appended to the
container, so the element list grows and the old element remains attached),
rebinds the registry to the new element, resets the displayed status to
`准备下载` (PENDING), leaves `lastUpdateTimes` and the pending removal timers
untouched, and requests a queue refresh. -/
theorem c7_duplicate_start_creates_element (st : St) (p : TaskStartPayload)
    (name : String)
    (ht : strTruthy p.taskId = true)
    (hn : decodeDisplayName p.filename = .ok name) :
    (resultState (downloadTaskStartHandler (some p) st)).dom
        = st.dom ++ [st.nextElemId] ∧
    jsMapGet (resultState (downloadTaskStartHandler (some p) st)).activeTasks
        p.taskId = some st.nextElemId ∧
    displayedStatus (resultState (downloadTaskStartHandler (some p) st))
        p.taskId = some "准备下载" ∧
    (resultState (downloadTaskStartHandler (some p) st)).lastUpdateTimes
        = st.lastUpdateTimes ∧
    (resultState (downloadTaskStartHandler (some p) st)).pendingRemovals
        = st.pendingRemovals ∧
    (resultState (downloadTaskStartHandler (some p) st)).commands
        = st.commands ++ [Cmd.refreshDownloadQueue] := by
  refine ⟨?_, ?_, ?_, ?_, ?_, ?_⟩ <;>
    simp [downloadTaskStartHandler, ht, hn, resultState, createTaskElement,
      displayedStatus, jsMapGet_set_self]

/-- C7, witness: the amended theorem at the duplicate-start scenario. -/
theorem c7_witness :
    (resultState (downloadTaskStartHandler
        (some { taskId := some "t1", filename := some "a.7z" })
        scnStarted)).dom = scnStarted.dom ++ [scnStarted.nextElemId] ∧
    jsMapGet (resultState (downloadTaskStartHandler
        (some { taskId := some "t1", filename := some "a.7z" })
        scnStarted)).activeTasks (some "t1") = some scnStarted.nextElemId ∧
    displayedStatus (resultState (downloadTaskStartHandler
        (some { taskId := some "t1", filename := some "a.7z" })
        scnStarted)) (some "t1") = some "准备下载" ∧
    (resultState (downloadTaskStartHandler
        (some { taskId := some "t1", filename := some "a.7z" })
        scnStarted)).lastUpdateTimes = scnStarted.lastUpdateTimes ∧
    (resultState (downloadTaskStartHandler
        (some { taskId := some "t1", filename := some "a.7z" })
        scnStarted)).pendingRemovals = scnStarted.pendingRemovals ∧
    (resultState (downloadTaskStartHandler
        (some { taskId := some "t1", filename := some "a.7z" })
        scnStarted)).commands
      = scnStarted.commands ++ [Cmd.refreshDownloadQueue] :=
  c7_duplicate_start_creates_element scnStarted
    { taskId := some "t1", filename := some "a.7z" } "a.7z" rfl rfl

/-! ## C8 — malformed events -/

/-- C8, counterexample.  The `download-progress` listener destructures
`event.payload` without `|| {}` and without a `taskId` guard: an entirely
absent payload makes the handler throw (a `TypeError`), contradicting the
claim that every lifecycle handler drops malformed events without throwing. -/
theorem c8_counterexample :
    downloadProgressHandler none 0 initSt = .error initSt := rfl

/-- C8, amended: the six guarded lifecycle listeners (`download-task-start`,
`download-complete`, `extract-start`, `extract-complete`, `download-failed`,
`download-canceled`) drop a payload whose `taskId` is falsy — including an
entirely absent payload — without throwing and without touching any state;
`download-progress` alone has no guard and throws on an absent payload. -/
theorem c8_guarded_handlers :
    (∀ (st : St) (now : Nat) (p : CompletePayload),
       strTruthy p.taskId = false →
       downloadCompleteHandler (some p) now st = .ok st) ∧
    (∀ (st : St) (now : Nat), downloadCompleteHandler none now st = .ok st) ∧
    (∀ (st : St) (p : ExtractStartPayload),
       strTruthy p.taskId = false → extractStartHandler (some p) st = .ok st) ∧
    (∀ (st : St), extractStartHandler none st = .ok st) ∧
    (∀ (st : St) (now : Nat) (p : ExtractCompletePayload),
       strTruthy p.taskId = false →
       extractCompleteHandler (some p) now st = .ok st) ∧
    (∀ (st : St) (now : Nat), extractCompleteHandler none now st = .ok st) ∧
    (∀ (st : St) (p : TaskStartPayload),
       strTruthy p.taskId = false →
       downloadTaskStartHandler (some p) st = .ok st) ∧
    (∀ (st : St), downloadTaskStartHandler none st = .ok st) ∧
    (∀ (st : St) (now : Nat) (p : FailedPayload),
       strTruthy p.taskId = false →
       downloadFailedHandler (some p) now st = .ok st) ∧
    (∀ (st : St) (now : Nat), downloadFailedHandler none now st = .ok st) ∧
    (∀ (st : St) (now : Nat) (p : CanceledPayload),
       strTruthy p.taskId = false →
       downloadCanceledHandler (some p) now st = .ok st) ∧
    (∀ (st : St) (now : Nat), downloadCanceledHandler none now st = .ok st) ∧
    (∀ (st : St) (now : Nat), downloadProgressHandler none now st = .error st) := by
  refine ⟨?_, ?_, ?_, ?_, ?_, ?_, ?_, ?_, ?_, ?_, ?_, ?_, ?_⟩ <;>
    first
    | (intro st now p h;
       first
       | simp [downloadCompleteHandler, h]
       | simp [extractCompleteHandler, h]
       | simp [downloadFailedHandler, h]
       | simp [downloadCanceledHandler, h])
    | (intro st p h;
       first
       | simp [extractStartHandler, h]
       | simp [downloadTaskStartHandler, h])
    | (intro st now; rfl)
    | (intro st; rfl)

/-- C8, witness: the guarded drop at a concrete empty-string `taskId` payload
and the unguarded throw, both on the initial state. -/
theorem c8_witness :
    downloadCompleteHandler (some { taskId := some "" }) 3 initSt
      = .ok initSt ∧
    downloadProgressHandler none 3 initSt = .error initSt :=
  ⟨c8_guarded_handlers.1 initSt 3 { taskId := some "" } rfl,
   c8_guarded_handlers.2.2.2.2.2.2.2.2.2.2.2.2 initSt 3⟩

/-! ## C9 — removal timers on reactivation -/

/-- C9, counterexample.  `t1` is canceled at time 0 (removal timer armed for
5000); a new `download-task-start` for `t1` arrives during the grace period
(reactivating the id — it is again registered, status `准备下载`); the armed
timer is still pending (nothing cancelled it), and when it fires it removes
the reactivated entry from the registry. -/
theorem c9_counterexample :
    (resultState (downloadTaskStartHandler
        (some { taskId := some "t1", filename := some "a.7z" })
        (resultState (downloadCanceledHandler
          (some { taskId := some "t1" }) 0 scnStarted)))).pendingRemovals
      = [(5000, some "t1")] ∧
    jsMapGet (resultState (downloadTaskStartHandler
        (some { taskId := some "t1", filename := some "a.7z" })
        (resultState (downloadCanceledHandler
          (some { taskId := some "t1" }) 0 scnStarted)))).activeTasks
      (some "t1") = some 1 ∧
    jsMapGet (fireRemovalTimer (some "t1")
        (resultState (downloadTaskStartHandler
          (some { taskId := some "t1", filename := some "a.7z" })
          (resultState (downloadCanceledHandler
            (some { taskId := some "t1" }) 0 scnStarted))))).activeTasks
      (some "t1") = none := by
  refine ⟨?_, ?_, ?_⟩ <;> rfl

/-- C9, amended: no removal-timer handle is ever stored, so no transition
cancels a pending timer — `download-task-start` and `download-progress`
leave `pendingRemovals` untouched — and when a timer fires it removes
whatever entry is registered under its id at that moment, reactivated or
not. -/
theorem c9_no_timer_cancellation :
    (∀ (st : St) (p : Option TaskStartPayload),
       (resultState (downloadTaskStartHandler p st)).pendingRemovals
         = st.pendingRemovals) ∧
    (∀ (st : St) (p : Option ProgressPayload) (now : Nat),
       (resultState (downloadProgressHandler p now st)).pendingRemovals
         = st.pendingRemovals) ∧
    (∀ (st : St) (tid : Option String),
       (st.activeTasks.map Prod.fst).Nodup →
       jsMapGet (fireRemovalTimer tid st).activeTasks tid = none) := by
  refine ⟨?_, ?_, ?_⟩
  · intro st p
    cases p with
    | none => rfl
    | some p =>
        by_cases ht : strTruthy p.taskId = true
        · cases hn : decodeDisplayName p.filename <;>
            simp [downloadTaskStartHandler, ht, hn, resultState,
              createTaskElement]
        · simp at ht
          simp [downloadTaskStartHandler, ht, resultState]
  · intro st p now
    cases p with
    | none => rfl
    | some p =>
        cases hn : decodeDisplayName p.filename with
        | error e => simp [downloadProgressHandler, hn, resultState]
        | ok nm =>
            cases hg : jsMapGet st.activeTasks p.taskId <;>
              cases hp : p.progress <;>
                cases hr : p.rawOutput <;>
                  simp [downloadProgressHandler, hn, hg, hp, hr, resultState,
                    createTaskElement, updateElemSt] <;>
                  split <;> rfl
  · intro st tid hnd
    unfold fireRemovalTimer removeTaskElement
    cases hg : jsMapGet st.activeTasks tid with
    | none => simpa using hg
    | some i => simpa using jsMapGet_delete_self tid hnd

/-- C9, witness: the amended facts at the counterexample scenario. -/
theorem c9_witness :
    (resultState (downloadTaskStartHandler
        (some { taskId := some "t1", filename := some "a.7z" })
        (resultState (downloadCanceledHandler
          (some { taskId := some "t1" }) 0 scnStarted)))).pendingRemovals
      = (resultState (downloadCanceledHandler
          (some { taskId := some "t1" }) 0 scnStarted)).pendingRemovals ∧
    jsMapGet (fireRemovalTimer (some "t1")
        (resultState (downloadTaskStartHandler
          (some { taskId := some "t1", filename := some "a.7z" })
          (resultState (downloadCanceledHandler
            (some { taskId := some "t1" }) 0 scnStarted))))).activeTasks
      (some "t1") = none :=
  ⟨c9_no_timer_cancellation.1 _ _,
   c9_no_timer_cancellation.2.2 _ (some "t1") (by decide)⟩

/-! ## C2 — stall detection -/

theorem stalledStep_activeTasks (now : Nat) (st : St) (x : Option String × Nat) :
    (checkStalledStep now st x).activeTasks = st.activeTasks := by
  unfold checkStalledStep
  cases hg : jsMapGet st.lastUpdateTimes x.1 <;> simp [hg]
  split <;> simp [updateElemSt]

theorem stalledStep_lastUpdateTimes (now : Nat) (st : St)
    (x : Option String × Nat) :
    (checkStalledStep now st x).lastUpdateTimes = st.lastUpdateTimes := by
  unfold checkStalledStep
  cases hg : jsMapGet st.lastUpdateTimes x.1 <;> simp [hg]
  split <;> simp [updateElemSt]

theorem stalledStep_commands_mem (now : Nat) (st : St)
    (x : Option String × Nat) {c : Cmd} (h : c ∈ st.commands) :
    c ∈ (checkStalledStep now st x).commands := by
  unfold checkStalledStep
  cases hg : jsMapGet st.lastUpdateTimes x.1 <;> simp [hg]
  · exact h
  · split <;> simp [updateElemSt, h]

theorem stalledStep_pending_mem (now : Nat) (st : St)
    (x : Option String × Nat) {r : Nat × Option String}
    (h : r ∈ st.pendingRemovals) :
    r ∈ (checkStalledStep now st x).pendingRemovals := by
  unfold checkStalledStep
  cases hg : jsMapGet st.lastUpdateTimes x.1 <;> simp [hg]
  · exact h
  · split <;> simp [updateElemSt, h]

theorem stalledStep_stalled_preserved (now : Nat) (st : St)
    (x : Option String × Nat) {i : Nat}
    (h : ∃ e, jsMapGet st.elems i = some e ∧ e.status = "下载中断") :
    ∃ e, jsMapGet (checkStalledStep now st x).elems i = some e ∧
      e.status = "下载中断" := by
  obtain ⟨e, he, hs⟩ := h
  unfold checkStalledStep
  cases hg : jsMapGet st.lastUpdateTimes x.1 <;> simp [hg]
  · exact ⟨e, he, hs⟩
  · split
    · by_cases hi : i = x.2
      · subst hi
        exact ⟨{ e with status := "下载中断", progressBg := "#ff9800" },
          by simp [updateElemSt, jsMapGet_update_self _ he], rfl⟩
      · exact ⟨e, by simp [updateElemSt, jsMapGet_update_ne _ _ hi, he], hs⟩
    · exact ⟨e, he, hs⟩

theorem stalledStep_fires (now : Nat) (st : St) (x : Option String × Nat)
    {t : Nat} {e : TaskElem}
    (hl : jsMapGet st.lastUpdateTimes x.1 = some t)
    (ht : t ≠ 0) (hs : now - t > 30000)
    (he : jsMapGet st.elems x.2 = some e) :
    Cmd.cancelDownload x.1 (some "stalled")
        ∈ (checkStalledStep now st x).commands ∧
    (now + 5000, x.1) ∈ (checkStalledStep now st x).pendingRemovals ∧
    ∃ e', jsMapGet (checkStalledStep now st x).elems x.2 = some e' ∧
      e'.status = "下载中断" := by
  unfold checkStalledStep
  simp only [hl]
  rw [if_pos ⟨ht, hs⟩]
  refine ⟨by simp [updateElemSt], by simp [updateElemSt], ?_⟩
  exact ⟨{ e with status := "下载中断", progressBg := "#ff9800" },
    by simp [updateElemSt, jsMapGet_update_self _ he], rfl⟩

theorem stalledStep_elems_isSome (now : Nat) (st : St)
    (x : Option String × Nat) {i : Nat}
    (h : (jsMapGet st.elems i).isSome) :
    (jsMapGet (checkStalledStep now st x).elems i).isSome := by
  unfold checkStalledStep
  cases hg : jsMapGet st.lastUpdateTimes x.1 <;> simp [hg]
  · exact h
  · split
    · by_cases hi : i = x.2
      · subst hi
        obtain ⟨e, he⟩ := Option.isSome_iff_exists.mp h
        simp [updateElemSt, jsMapGet_update_self _ he]
      · simpa [updateElemSt, jsMapGet_update_ne _ _ hi] using h
    · exact h

theorem stalledFold_activeTasks (now : Nat) :
    ∀ (l : List (Option String × Nat)) (st : St),
      (l.foldl (checkStalledStep now) st).activeTasks = st.activeTasks := by
  intro l
  induction l with
  | nil => intro st; rfl
  | cons hd tl ih =>
      intro st
      simp only [List.foldl_cons]
      rw [ih, stalledStep_activeTasks]

theorem stalledFold_lastUpdateTimes (now : Nat) :
    ∀ (l : List (Option String × Nat)) (st : St),
      (l.foldl (checkStalledStep now) st).lastUpdateTimes
        = st.lastUpdateTimes := by
  intro l
  induction l with
  | nil => intro st; rfl
  | cons hd tl ih =>
      intro st
      simp only [List.foldl_cons]
      rw [ih, stalledStep_lastUpdateTimes]

theorem stalledFold_commands_mem (now : Nat) :
    ∀ (l : List (Option String × Nat)) (st : St) {c : Cmd},
      c ∈ st.commands → c ∈ (l.foldl (checkStalledStep now) st).commands := by
  intro l
  induction l with
  | nil => intro st c h; exact h
  | cons hd tl ih =>
      intro st c h
      simp only [List.foldl_cons]
      exact ih _ (stalledStep_commands_mem now st hd h)

theorem stalledFold_pending_mem (now : Nat) :
    ∀ (l : List (Option String × Nat)) (st : St) {r : Nat × Option String},
      r ∈ st.pendingRemovals →
      r ∈ (l.foldl (checkStalledStep now) st).pendingRemovals := by
  intro l
  induction l with
  | nil => intro st r h; exact h
  | cons hd tl ih =>
      intro st r h
      simp only [List.foldl_cons]
      exact ih _ (stalledStep_pending_mem now st hd h)

theorem stalledFold_stalled_preserved (now : Nat) :
    ∀ (l : List (Option String × Nat)) (st : St) {i : Nat},
      (∃ e, jsMapGet st.elems i = some e ∧ e.status = "下载中断") →
      ∃ e, jsMapGet (l.foldl (checkStalledStep now) st).elems i = some e ∧
        e.status = "下载中断" := by
  intro l
  induction l with
  | nil => intro st i h; exact h
  | cons hd tl ih =>
      intro st i h
      simp only [List.foldl_cons]
      exact ih _ (stalledStep_stalled_preserved now st hd h)

theorem stalledFold_elems_isSome (now : Nat) :
    ∀ (l : List (Option String × Nat)) (st : St) {i : Nat},
      (jsMapGet st.elems i).isSome →
      (jsMapGet (l.foldl (checkStalledStep now) st).elems i).isSome := by
  intro l
  induction l with
  | nil => intro st i h; exact h
  | cons hd tl ih =>
      intro st i h
      simp only [List.foldl_cons]
      exact ih _ (stalledStep_elems_isSome now st hd h)

/-- C2, counterexample.  Task `t1` last updated at time 1; the 5 s sweep at
time 40000 fires the stall path (one `cancel_download(..,"stalled")` and one
scheduled removal at 45000), and — the task still being present, its
registry entries untouched, no guard flag existing — the very next sweep at
45000 fires the whole path AGAIN: two cancel commands and two scheduled
removals for one stall episode, contradicting "exactly once … not again on
each subsequent 5s tick". -/
theorem c2_counterexample :
    ((checkStalledDownloads 40000 (resultState (downloadProgressHandler
        (some { taskId := some "t1", progress := some 10,
                filename := some "a.7z" }) 1 initSt))).commands.count
      (Cmd.cancelDownload (some "t1") (some "stalled")) = 1) ∧
    ((checkStalledDownloads 45000 (checkStalledDownloads 40000
        (resultState (downloadProgressHandler
          (some { taskId := some "t1", progress := some 10,
                  filename := some "a.7z" }) 1 initSt)))).commands.count
      (Cmd.cancelDownload (some "t1") (some "stalled")) = 2) ∧
    ((checkStalledDownloads 45000 (checkStalledDownloads 40000
        (resultState (downloadProgressHandler
          (some { taskId := some "t1", progress := some 10,
                  filename := some "a.7z" }) 1 initSt)))).pendingRemovals
      = [(45000, some "t1"), (50000, some "t1")]) := by
  refine ⟨?_, ?_, ?_⟩ <;> rfl

/-- C2, amended: each sweep pass over a registered task whose (nonzero)
`lastUpdateTimes` entry is more than 30 s old marks it `下载中断` (STALLED),
issues `cancel_download` with `reason="stalled"`, and schedules removal 5 s
out — but there is no per-task one-shot guard: the sweep leaves `activeTasks`
and `lastUpdateTimes` unchanged, so the firing condition still holds on the
next tick and every subsequent sweep while the task remains present fires
the full path again.  (Only the removal scheduled 5 s after a firing ends
the episode.) -/
theorem stalledFold_fires (now : Nat) (tid : Option String) (i t : Nat) :
    ∀ (l : List (Option String × Nat)) (st : St),
      (tid, i) ∈ l →
      jsMapGet st.lastUpdateTimes tid = some t →
      t ≠ 0 → now - t > 30000 →
      (jsMapGet st.elems i).isSome →
      Cmd.cancelDownload tid (some "stalled")
          ∈ (l.foldl (checkStalledStep now) st).commands ∧
      (now + 5000, tid) ∈ (l.foldl (checkStalledStep now) st).pendingRemovals ∧
      ∃ e', jsMapGet (l.foldl (checkStalledStep now) st).elems i = some e' ∧
        e'.status = "下载中断" := by
  intro l
  induction l with
  | nil => intro st h; simp at h
  | cons hd tl ih =>
      intro st hmem hl ht hs he
      simp only [List.foldl_cons]
      rcases List.mem_cons.mp hmem with heq | hmem'
      · obtain ⟨e, he'⟩ := Option.isSome_iff_exists.mp he
        subst heq
        obtain ⟨h1, h2, h3⟩ := stalledStep_fires now st (tid, i) hl ht hs he'
        exact ⟨stalledFold_commands_mem now tl _ h1,
               stalledFold_pending_mem now tl _ h2,
               stalledFold_stalled_preserved now tl _ h3⟩
      · exact ih _ hmem' (by rw [stalledStep_lastUpdateTimes]; exact hl) ht hs
          (stalledStep_elems_isSome now st hd he)

theorem c2_sweep_no_oneshot_guard (now : Nat) (st : St)
    (tid : Option String) (i t : Nat) (e : TaskElem)
    (hmem : (tid, i) ∈ st.activeTasks)
    (he : jsMapGet st.elems i = some e)
    (hl : jsMapGet st.lastUpdateTimes tid = some t)
    (ht : t ≠ 0) (hs : now - t > 30000) :
    Cmd.cancelDownload tid (some "stalled")
        ∈ (checkStalledDownloads now st).commands ∧
    (now + 5000, tid) ∈ (checkStalledDownloads now st).pendingRemovals ∧
    (∃ e', jsMapGet (checkStalledDownloads now st).elems i = some e' ∧
      e'.status = "下载中断") ∧
    (checkStalledDownloads now st).activeTasks = st.activeTasks ∧
    (checkStalledDownloads now st).lastUpdateTimes = st.lastUpdateTimes := by
  have h := stalledFold_fires now tid i t st.activeTasks st hmem hl ht hs
    (by simp [he])
  exact ⟨h.1, h.2.1, h.2.2, stalledFold_activeTasks now _ st,
    stalledFold_lastUpdateTimes now _ st⟩

/-- C2, witness for the amended theorem: the sweep at time 40000 over the
task last updated at time 1. -/
theorem c2_witness :
    Cmd.cancelDownload (some "t1") (some "stalled")
        ∈ (checkStalledDownloads 40000 (resultState (downloadProgressHandler
          (some { taskId := some "t1", progress := some 10,
                  filename := some "a.7z" }) 1 initSt))).commands ∧
    (40000 + 5000, some "t1")
        ∈ (checkStalledDownloads 40000 (resultState (downloadProgressHandler
          (some { taskId := some "t1", progress := some 10,
                  filename := some "a.7z" }) 1 initSt))).pendingRemovals := by
  have h := c2_sweep_no_oneshot_guard 40000
    (resultState (downloadProgressHandler
      (some { taskId := some "t1", progress := some 10,
              filename := some "a.7z" }) 1 initSt))
    (some "t1") 0 1 _ (by decide) rfl rfl (by decide) (by decide)
  exact ⟨h.1, h.2.1⟩

/-! ## Queue-reconciler characterisation lemmas -/

/-- The queue-task children one waiting-list pass produces, as a pure
function of the snapshot (`error` = a `URIError` thrown mid-loop). -/
def waitingEntries (hasActive : Bool) : Nat → List WaitingTask → Except Unit (List QEntry)
  | _, [] => .ok []
  | idx, t :: rest =>
      match decodeDisplayName t.filename with
      | .error _ => .error ()
      | .ok nm =>
          (waitingEntries hasActive (idx + 1) rest).map
            (QEntry.queueTask nm (if hasActive then idx + 1 else 0) :: ·)

theorem renderWaitingList_eq_ok {hasActive : Bool} {idx : Nat}
    {ts : List WaitingTask} {E : List QEntry}
    (h : waitingEntries hasActive idx ts = .ok E) :
    ∀ (st : St) (m : Nat),
      renderWaitingList hasActive idx ts st m =
        .ok ({ st with queueListChildren := st.queueListChildren ++ E },
             m + E.length) := by
  induction ts generalizing idx E with
  | nil =>
      intro st m
      simp [waitingEntries] at h
      subst h
      simp [renderWaitingList]
  | cons t rest ih =>
      intro st m
      unfold waitingEntries at h
      cases hd : decodeDisplayName t.filename with
      | error e => rw [hd] at h; cases h
      | ok nm =>
          rw [hd] at h
          cases hE' : waitingEntries hasActive (idx + 1) rest with
          | error e => rw [hE'] at h; cases h
          | ok E' =>
              rw [hE'] at h
              simp [Except.map] at h
              subst h
              unfold renderWaitingList
              rw [hd]
              dsimp only
              rw [ih hE']
              simp [List.append_assoc]
              omega

theorem renderWaitingList_eq_error {hasActive : Bool} {idx : Nat}
    {ts : List WaitingTask}
    (h : waitingEntries hasActive idx ts = .error ()) :
    ∀ (st : St) (m : Nat),
      ∃ stE, renderWaitingList hasActive idx ts st m = .error stE := by
  induction ts generalizing idx with
  | nil => simp [waitingEntries] at h
  | cons t rest ih =>
      intro st m
      unfold waitingEntries at h
      cases hd : decodeDisplayName t.filename with
      | error e =>
          exact ⟨st, by unfold renderWaitingList; rw [hd]⟩
      | ok nm =>
          rw [hd] at h
          cases hE' : waitingEntries hasActive (idx + 1) rest with
          | error e =>
              obtain ⟨stE, hstE⟩ := ih hE'
                ({ st with queueListChildren :=
                    st.queueListChildren ++
                      [QEntry.queueTask nm (if hasActive then idx + 1 else 0)] })
                (m + 1)
              exact ⟨stE, by unfold renderWaitingList; rw [hd]; exact hstE⟩
          | ok E' => rw [hE'] at h; simp [Except.map] at h

/-- The children one extract waiting-list pass produces. -/
def extractEntries (hasActive : Bool) : Nat → List ExtractWaitingTask → List QEntry
  | _, [] => []
  | idx, t :: rest =>
      QEntry.queueTask
        (match t.archiveName with
         | some s => if s = "" then "未知压缩包" else s
         | none => "未知压缩包")
        (if hasActive then idx + 1 else 0) :: extractEntries hasActive (idx + 1) rest

theorem renderExtractWaitingList_eq {hasActive : Bool} :
    ∀ (ts : List ExtractWaitingTask) (idx : Nat) (st : St) (m : Nat),
      renderExtractWaitingList hasActive idx ts st m =
        ({ st with extractQueueListChildren :=
            st.extractQueueListChildren ++ extractEntries hasActive idx ts },
         m + ts.length) := by
  intro ts
  induction ts with
  | nil => intro idx st m; simp [renderExtractWaitingList, extractEntries]
  | cons t rest ih =>
      intro idx st m
      unfold renderExtractWaitingList extractEntries
      rw [ih]
      simp [Prod.ext_iff, List.append_assoc]
      omega

theorem syncStep_queueListChildren (now : Nat) (st : St) (t : ActiveTask) :
    (syncActiveStep now st t).queueListChildren = st.queueListChildren := by
  unfold syncActiveStep
  cases hd : decodeDisplayName t.filename <;> simp
  cases hg : jsMapGet st.activeTasks t.id <;> simp [createTaskElement]

theorem syncStep_queueContainerVisible (now : Nat) (st : St) (t : ActiveTask) :
    (syncActiveStep now st t).queueContainerVisible
      = st.queueContainerVisible := by
  unfold syncActiveStep
  cases hd : decodeDisplayName t.filename <;> simp
  cases hg : jsMapGet st.activeTasks t.id <;> simp [createTaskElement]

theorem syncFold_queueListChildren (now : Nat) :
    ∀ (l : List ActiveTask) (st : St),
      (l.foldl (syncActiveStep now) st).queueListChildren
        = st.queueListChildren := by
  intro l
  induction l with
  | nil => intro st; rfl
  | cons hd tl ih =>
      intro st
      simp only [List.foldl_cons]
      rw [ih, syncStep_queueListChildren]

theorem syncFold_queueContainerVisible (now : Nat) :
    ∀ (l : List ActiveTask) (st : St),
      (l.foldl (syncActiveStep now) st).queueContainerVisible
        = st.queueContainerVisible := by
  intro l
  induction l with
  | nil => intro st; rfl
  | cons hd tl ih =>
      intro st
      simp only [List.foldl_cons]
      rw [ih, syncStep_queueContainerVisible]

/-- An active entry's synchronisation obligations hold in `st`: if its name
decodes, the id is registered and its `lastUpdateTimes` entry equals `now`. -/
def syncDone (now : Nat) (st : St) (t : ActiveTask) : Prop :=
  ∀ nm, decodeDisplayName t.filename = .ok nm →
    (jsMapGet st.activeTasks t.id).isSome ∧
    jsMapGet st.lastUpdateTimes t.id = some now

theorem syncStep_self_done (now : Nat) (st : St) (t : ActiveTask) :
    syncDone now (syncActiveStep now st t) t := by
  intro nm hnm
  unfold syncActiveStep
  rw [hnm]
  dsimp only
  cases hg : jsMapGet st.activeTasks t.id <;>
    simp [hg, createTaskElement, jsMapGet_set_self]

theorem syncStep_preserves_done (now : Nat) (st : St) (t t' : ActiveTask)
    (h : syncDone now st t) : syncDone now (syncActiveStep now st t') t := by
  intro nm hnm
  obtain ⟨h1, h2⟩ := h nm hnm
  unfold syncActiveStep
  cases hd : decodeDisplayName t'.filename with
  | error e => exact ⟨h1, h2⟩
  | ok nm' =>
      dsimp only
      cases hg : jsMapGet st.activeTasks t'.id with
      | some i =>
          refine ⟨h1, ?_⟩
          by_cases hid : t.id = t'.id
          · rw [hid]; exact jsMapGet_set_self _ _ _
          · rw [jsMapGet_set_ne _ _ hid]; exact h2
      | none =>
          simp only [createTaskElement]
          refine ⟨?_, ?_⟩
          · by_cases hid : t.id = t'.id
            · rw [hid, jsMapGet_set_self]; rfl
            · rw [jsMapGet_set_ne _ _ hid]; exact h1
          · by_cases hid : t.id = t'.id
            · rw [hid]; exact jsMapGet_set_self _ _ _
            · rw [jsMapGet_set_ne _ _ hid]; exact h2

theorem syncFold_preserves_done (now : Nat) :
    ∀ (l : List ActiveTask) (st : St) (t : ActiveTask),
      syncDone now st t → syncDone now (l.foldl (syncActiveStep now) st) t := by
  intro l
  induction l with
  | nil => intro st t h; exact h
  | cons hd tl ih =>
      intro st t h
      simp only [List.foldl_cons]
      exact ih _ _ (syncStep_preserves_done now st t hd h)

theorem syncFold_done (now : Nat) :
    ∀ (l : List ActiveTask) (st : St) (t : ActiveTask), t ∈ l →
      syncDone now (l.foldl (syncActiveStep now) st) t := by
  intro l
  induction l with
  | nil => intro st t h; simp at h
  | cons hd tl ih =>
      intro st t hmem
      simp only [List.foldl_cons]
      rcases List.mem_cons.mp hmem with heq | hmem'
      · subst heq
        exact syncFold_preserves_done now tl _ t (syncStep_self_done now st t)
      · exact ih _ _ hmem'

theorem syncStep_id (now : Nat) (st : St) (t : ActiveTask)
    (h : syncDone now st t) : syncActiveStep now st t = st := by
  unfold syncActiveStep
  cases hd : decodeDisplayName t.filename with
  | error e => rfl
  | ok nm =>
      obtain ⟨h1, h2⟩ := h nm hd
      obtain ⟨i, hi⟩ := Option.isSome_iff_exists.mp h1
      dsimp only
      rw [hi]
      simp [jsMapSet_self h2]

theorem syncFold_id (now : Nat) :
    ∀ (l : List ActiveTask) (st : St),
      (∀ t ∈ l, syncDone now st t) → l.foldl (syncActiveStep now) st = st := by
  intro l
  induction l with
  | nil => intro st _; rfl
  | cons hd tl ih =>
      intro st h
      simp only [List.foldl_cons]
      rw [syncStep_id now st hd (h hd (List.mem_cons_self hd tl))]
      exact ih st fun t ht => h t (List.mem_cons_of_mem hd ht)

theorem syncFold_idem (now : Nat) (l : List ActiveTask) (st : St) :
    List.foldl (syncActiveStep now) (List.foldl (syncActiveStep now) st l) l
      = List.foldl (syncActiveStep now) st l :=
  syncFold_id now l _ fun t ht => syncFold_done now l st t ht

/-- `updateQueueDisplay` on a nonempty waiting list whose names all decode:
clear, render the entries, synchronise the active list. -/
theorem updateQueueDisplay_ok_pos {waiting : List WaitingTask}
    (total : Nat) (active : List ActiveTask) (now : Nat)
    (hw : waiting ≠ []) {E : List QEntry}
    (hE : waitingEntries (!active.isEmpty) 0 waiting = .ok E) (st : St) :
    updateQueueDisplay total waiting active now st =
      .ok (active.foldl (syncActiveStep now)
            { st with queueListChildren := E, queueContainerVisible := true },
           st.queueListChildren.length + E.length) := by
  unfold updateQueueDisplay
  dsimp only
  rw [if_pos (by simpa using List.length_pos.mpr hw)]
  rw [renderWaitingList_eq_ok hE]
  simp

/-- `updateQueueDisplay` on an empty waiting list. -/
theorem updateQueueDisplay_ok_neg (total : Nat) (active : List ActiveTask)
    (now : Nat) (st : St) :
    updateQueueDisplay total [] active now st =
      .ok (active.foldl (syncActiveStep now)
            { st with queueListChildren := [QEntry.emptyHint],
                      queueContainerVisible := false },
           st.queueListChildren.length + 1) := by
  unfold updateQueueDisplay
  simp

theorem renderWaitingList_ok_inv {hasActive : Bool} {ts : List WaitingTask}
    {st' : St} {m' : Nat} :
    ∀ {idx : Nat} {st : St} {m : Nat},
      renderWaitingList hasActive idx ts st m = .ok (st', m') →
      ∃ E, waitingEntries hasActive idx ts = .ok E := by
  induction ts with
  | nil => intro idx st m _; exact ⟨[], rfl⟩
  | cons t rest ih =>
      intro idx st m h
      unfold renderWaitingList at h
      cases hd : decodeDisplayName t.filename with
      | error e => rw [hd] at h; simp at h
      | ok nm =>
          rw [hd] at h
          dsimp only at h
          obtain ⟨E', hE'⟩ := ih h
          exact ⟨_, by unfold waitingEntries; rw [hd, hE']; rfl⟩

/-- A successful `updateQueueDisplay` run on a nonempty waiting list implies
every waiting name decoded. -/
theorem updateQueueDisplay_ok_entries {waiting : List WaitingTask}
    {total : Nat} {active : List ActiveTask} {now : Nat} {st st' : St}
    {m : Nat} (hw : waiting ≠ [])
    (h : updateQueueDisplay total waiting active now st = .ok (st', m)) :
    ∃ E, waitingEntries (!active.isEmpty) 0 waiting = .ok E := by
  unfold updateQueueDisplay at h
  dsimp only at h
  rw [if_pos (by simpa using List.length_pos.mpr hw)] at h
  split at h
  · simp at h
  · next heq => exact renderWaitingList_ok_inv heq

theorem st_update_id (st : St) (C : List QEntry) (v : Bool)
    (h1 : st.queueListChildren = C) (h2 : st.queueContainerVisible = v) :
    ({ st with queueListChildren := C, queueContainerVisible := v } : St)
      = st := by
  cases st
  subst h1
  subst h2
  rfl

theorem updateQueueDisplay_idem {total : Nat} {waiting : List WaitingTask}
    {active : List ActiveTask} {now : Nat} {st st1 : St} {m1 : Nat}
    (h : updateQueueDisplay total waiting active now st = .ok (st1, m1)) :
    ∃ m2, updateQueueDisplay total waiting active now st1 = .ok (st1, m2) := by
  by_cases hw : waiting = []
  · subst hw
    rw [updateQueueDisplay_ok_neg total active now st] at h
    simp only [Except.ok.injEq, Prod.mk.injEq] at h
    obtain ⟨hA, _⟩ := h
    subst hA
    exact ⟨_, by
      rw [updateQueueDisplay_ok_neg,
        st_update_id _ _ _ (by rw [syncFold_queueListChildren])
          (by rw [syncFold_queueContainerVisible]),
        syncFold_idem]⟩
  · obtain ⟨E, hE⟩ := updateQueueDisplay_ok_entries hw h
    rw [updateQueueDisplay_ok_pos total active now hw hE st] at h
    simp only [Except.ok.injEq, Prod.mk.injEq] at h
    obtain ⟨hA, _⟩ := h
    subst hA
    exact ⟨_, by
      rw [updateQueueDisplay_ok_pos total active now hw hE,
        st_update_id _ _ _ (by rw [syncFold_queueListChildren])
          (by rw [syncFold_queueContainerVisible]),
        syncFold_idem]⟩

/-! ## C3 — reconciliation idempotence -/

/-- The state produced by a successful reconciliation pass. -/
def queueRunState (total : Nat) (waiting : List WaitingTask)
    (active : List ActiveTask) (now : Nat) (st : St) : Option St :=
  match updateQueueDisplay total waiting active now st with
  | .ok (st1, _) => some st1
  | .error _ => none

/-- The number of queue-list child mutations performed by a second
reconciliation pass with identical snapshot content. -/
def secondPassMutations (total : Nat) (waiting : List WaitingTask)
    (active : List ActiveTask) (now : Nat) (st : St) : Option Nat :=
  match updateQueueDisplay total waiting active now st with
  | .ok (st1, _) =>
      match updateQueueDisplay total waiting active now st1 with
      | .ok (_, m2) => some m2
      | .error _ => none
  | .error _ => none

/-- C3, counterexample.  Re-running reconciliation with a byte-identical
one-waiting/one-active snapshot performs 2 mutations on the rendered set
(`innerHTML = ""` removes the child built by the first pass, and the entry
is appended again), not the claimed 0. -/
theorem c3_counterexample :
    secondPassMutations 2 [{ id := some "w1", filename := some "w.7z" }]
      [{ id := some "a1", filename := some "a.7z" }] 100 initSt = some 2 := by
  rfl

/-- C3, amended: the reconciler is not mutation-free on a repeated identical
snapshot — it clears and rebuilds the queue list every pass (see the
counterexample) — but it IS idempotent on the resulting state: a second pass
with identical snapshot content and the same clock reproduces exactly the
state left by the first pass. -/
theorem c3_second_pass_state_identical (total : Nat)
    (waiting : List WaitingTask) (active : List ActiveTask) (now : Nat)
    (st st1 : St)
    (h : queueRunState total waiting active now st = some st1) :
    queueRunState total waiting active now st1 = some st1 := by
  unfold queueRunState at h ⊢
  cases hrun : updateQueueDisplay total waiting active now st with
  | error stE => rw [hrun] at h; cases h
  | ok r =>
      obtain ⟨s, m⟩ := r
      rw [hrun] at h
      simp only [Option.some.injEq] at h
      subst h
      obtain ⟨m2, hm2⟩ := updateQueueDisplay_idem hrun
      rw [hm2]

/-- C3, witness for the amended theorem: the second pass over the concrete
snapshot of the counterexample reproduces the first-pass state. -/
theorem c3_witness :
    queueRunState 2 [{ id := some "w1", filename := some "w.7z" }]
      [{ id := some "a1", filename := some "a.7z" }] 100
      ((queueRunState 2 [{ id := some "w1", filename := some "w.7z" }]
        [{ id := some "a1", filename := some "a.7z" }] 100 initSt).getD initSt)
      = some ((queueRunState 2 [{ id := some "w1", filename := some "w.7z" }]
        [{ id := some "a1", filename := some "a.7z" }] 100 initSt).getD initSt) :=
  c3_second_pass_state_identical 2 _ _ 100 initSt _ rfl

/-! ## C4 — queue position assignment -/

/-- The display positions carried by the queue-task children, in order. -/
def positionsOf : List QEntry → List Nat
  | [] => []
  | QEntry.emptyHint :: rest => positionsOf rest
  | QEntry.queueTask _ p :: rest => p :: positionsOf rest

theorem waitingEntries_positions_true :
    ∀ (ts : List WaitingTask) (idx : Nat) (E : List QEntry),
      waitingEntries true idx ts = .ok E →
      positionsOf E = List.range' (idx + 1) ts.length := by
  intro ts
  induction ts with
  | nil =>
      intro idx E h
      simp [waitingEntries] at h
      subst h
      simp [positionsOf]
  | cons t rest ih =>
      intro idx E h
      unfold waitingEntries at h
      cases hd : decodeDisplayName t.filename with
      | error e => rw [hd] at h; cases h
      | ok nm =>
          rw [hd] at h
          cases hE' : waitingEntries true (idx + 1) rest with
          | error e => rw [hE'] at h; simp [Except.map] at h
          | ok E' =>
              rw [hE'] at h
              simp [Except.map] at h
              subst h
              simp [positionsOf, ih _ _ hE', List.range'_succ]

theorem waitingEntries_positions_false :
    ∀ (ts : List WaitingTask) (idx : Nat) (E : List QEntry),
      waitingEntries false idx ts = .ok E →
      ∀ p ∈ positionsOf E, p = 0 := by
  intro ts
  induction ts with
  | nil =>
      intro idx E h
      simp [waitingEntries] at h
      subst h
      simp [positionsOf]
  | cons t rest ih =>
      intro idx E h
      unfold waitingEntries at h
      cases hd : decodeDisplayName t.filename with
      | error e => rw [hd] at h; cases h
      | ok nm =>
          rw [hd] at h
          cases hE' : waitingEntries false (idx + 1) rest with
          | error e => rw [hE'] at h; simp [Except.map] at h
          | ok E' =>
              rw [hE'] at h
              simp [Except.map] at h
              subst h
              intro p hp
              simp [positionsOf] at hp
              rcases hp with hp | hp
              · exact hp
              · exact ih _ _ hE' p hp

theorem extractEntries_positions_true :
    ∀ (ts : List ExtractWaitingTask) (idx : Nat),
      positionsOf (extractEntries true idx ts)
        = List.range' (idx + 1) ts.length := by
  intro ts
  induction ts with
  | nil => intro idx; simp [extractEntries, positionsOf]
  | cons t rest ih =>
      intro idx
      simp [extractEntries, positionsOf, ih, List.range'_succ]

theorem extractEntries_positions_false :
    ∀ (ts : List ExtractWaitingTask) (idx : Nat),
      ∀ p ∈ positionsOf (extractEntries false idx ts), p = 0 := by
  intro ts
  induction ts with
  | nil => intro idx p hp; simp [extractEntries, positionsOf] at hp
  | cons t rest ih =>
      intro idx p hp
      simp [extractEntries, positionsOf] at hp
      rcases hp with hp | hp
      · exact hp
      · exact ih _ p hp

/-- C4, confirmed: in both pipelines, a snapshot with a non-empty active
list assigns the waiting entries exactly the display positions `1..N` in
list order, and a snapshot with an empty active list assigns every waiting
entry position `0` (rendered as `即将开始`, "about to start"). -/
theorem c4_queue_positions :
    (∀ (total : Nat) (waiting : List WaitingTask) (active : List ActiveTask)
        (now : Nat) (st st' : St) (m : Nat),
       updateQueueDisplay total waiting active now st = .ok (st', m) →
       (active ≠ [] →
         positionsOf st'.queueListChildren = List.range' 1 waiting.length) ∧
       (active = [] →
         ∀ p ∈ positionsOf st'.queueListChildren, p = 0)) ∧
    (∀ (total : Nat) (waiting : List ExtractWaitingTask)
        (active : List ActiveTask) (st : St),
       (active ≠ [] →
         positionsOf ((updateExtractQueueDisplay total waiting active
           st).1).extractQueueListChildren = List.range' 1 waiting.length) ∧
       (active = [] →
         ∀ p ∈ positionsOf ((updateExtractQueueDisplay total waiting active
           st).1).extractQueueListChildren, p = 0)) := by
  constructor
  · intro total waiting active now st st' m h
    by_cases hw : waiting = []
    · subst hw
      rw [updateQueueDisplay_ok_neg total active now st] at h
      simp only [Except.ok.injEq, Prod.mk.injEq] at h
      obtain ⟨hA, _⟩ := h
      subst hA
      rw [syncFold_queueListChildren]
      constructor
      · intro _; simp [positionsOf]
      · intro _ p hp; simp [positionsOf] at hp
    · obtain ⟨E, hE⟩ := updateQueueDisplay_ok_entries hw h
      rw [updateQueueDisplay_ok_pos total active now hw hE st] at h
      simp only [Except.ok.injEq, Prod.mk.injEq] at h
      obtain ⟨hA, _⟩ := h
      subst hA
      rw [syncFold_queueListChildren]
      constructor
      · intro ha
        have hb : (!active.isEmpty) = true := by
          simp [List.isEmpty_iff, ha]
        rw [hb] at hE
        exact waitingEntries_positions_true waiting 0 E hE
      · intro ha
        subst ha
        rw [show (!(([] : List ActiveTask).isEmpty)) = false by rfl] at hE
        exact waitingEntries_positions_false waiting 0 E hE
  · intro total waiting active st
    unfold updateExtractQueueDisplay
    by_cases hw : waiting.length > 0
    · rw [if_pos hw, renderExtractWaitingList_eq]
      constructor
      · intro ha
        have hb : (!active.isEmpty) = true := by
          simp [List.isEmpty_iff, ha]
        simp only [hb]
        exact extractEntries_positions_true waiting 0
      · intro ha
        subst ha
        simp only [List.isEmpty_nil, Bool.not_true]
        exact extractEntries_positions_false waiting 0
    · rw [if_neg hw]
      have hw' : waiting = [] := by
        simpa using List.length_eq_zero.mp (by omega)
      subst hw'
      constructor
      · intro _; simp [positionsOf]
      · intro _ p hp; simp [positionsOf] at hp

/-- C4, witness: the concrete snapshot `waiting=[w1], active=[a1]` gets
position list `[1]` in the download pipeline, and a two-entry extract
snapshot with no active task gets all-zero positions. -/
theorem c4_witness :
    positionsOf ((queueRunState 2
        [{ id := some "w1", filename := some "w.7z" }]
        [{ id := some "a1", filename := some "a.7z" }] 100 initSt).getD
        initSt).queueListChildren = List.range' 1 1 ∧
    (∀ p ∈ positionsOf ((updateExtractQueueDisplay 2
        [{ id := some "x1", archiveName := some "x.7z" },
         { id := some "x2", archiveName := some "y.7z" }] [] initSt).1
        ).extractQueueListChildren, p = 0) :=
  ⟨(c4_queue_positions.1 2 [{ id := some "w1", filename := some "w.7z" }]
      [{ id := some "a1", filename := some "a.7z" }] 100 initSt
      ((queueRunState 2 [{ id := some "w1", filename := some "w.7z" }]
        [{ id := some "a1", filename := some "a.7z" }] 100 initSt).getD
        initSt) 2 (by rfl)).1 (by simp),
   (c4_queue_positions.2 2 [{ id := some "x1", archiveName := some "x.7z" },
      { id := some "x2", archiveName := some "y.7z" }] [] initSt).2 rfl⟩

/-! ## C6 — active-list synthesis -/

/-- C6, counterexample.  An extract-queue snapshot whose `activeList` holds
`e1`, absent from the Registry, leaves the Registry untouched:
`updateExtractQueueDisplay` never synthesizes — its `activeTask` argument is
consulted only for `length > 0` — so the claimed "both pipelines run the
same reconciliation algorithm" is false. -/
theorem c6_counterexample :
    jsMapGet ((updateExtractQueueDisplay 1
      [{ id := some "w", archiveName := some "w.7z" }]
      [{ id := some "e1", filename := some "x.7z" }] initSt).1).activeTasks
      (some "e1") = none ∧
    ((updateExtractQueueDisplay 1
      [{ id := some "w", archiveName := some "w.7z" }]
      [{ id := some "e1", filename := some "x.7z" }] initSt).1).lastUpdateTimes
      = [] := by
  constructor <;> rfl

/-- C6, amended: only the download pipeline synthesizes.  The extract-queue
handler leaves the Registry (`activeTasks`, `lastUpdateTimes`, element store)
completely untouched; the download reconciler creates, for each active entry
with a decodable name that is unregistered when its loop step runs, a fresh
element in status `正在下载...` (DOWNLOADING) and stamps
`lastUpdateTimes = now`, and after a successful download pass every
decodable active id is registered with timestamp `now`. -/
theorem c6_synthesis_download_only :
    (∀ (total : Nat) (waiting : List ExtractWaitingTask)
        (active : List ActiveTask) (st : St),
       ((updateExtractQueueDisplay total waiting active st).1).activeTasks
           = st.activeTasks ∧
       ((updateExtractQueueDisplay total waiting active st).1).lastUpdateTimes
           = st.lastUpdateTimes ∧
       ((updateExtractQueueDisplay total waiting active st).1).elems
           = st.elems) ∧
    (∀ (now : Nat) (st : St) (t : ActiveTask) (nm : String),
       decodeDisplayName t.filename = .ok nm →
       jsMapGet st.activeTasks t.id = none →
       jsMapGet (syncActiveStep now st t).activeTasks t.id
           = some st.nextElemId ∧
       (∃ e, jsMapGet (syncActiveStep now st t).elems st.nextElemId = some e ∧
         e.status = "正在下载..." ∧ e.filename = nm) ∧
       jsMapGet (syncActiveStep now st t).lastUpdateTimes t.id = some now) ∧
    (∀ (total : Nat) (waiting : List WaitingTask) (active : List ActiveTask)
        (now : Nat) (st st' : St) (m : Nat),
       updateQueueDisplay total waiting active now st = .ok (st', m) →
       ∀ t ∈ active, ∀ nm, decodeDisplayName t.filename = .ok nm →
         (jsMapGet st'.activeTasks t.id).isSome ∧
         jsMapGet st'.lastUpdateTimes t.id = some now) := by
  refine ⟨?_, ?_, ?_⟩
  · intro total waiting active st
    unfold updateExtractQueueDisplay
    by_cases hw : waiting.length > 0
    · rw [if_pos hw, renderExtractWaitingList_eq]
      exact ⟨rfl, rfl, rfl⟩
    · rw [if_neg hw]
      exact ⟨rfl, rfl, rfl⟩
  · intro now st t nm hnm hg
    unfold syncActiveStep
    rw [hnm]
    dsimp only
    rw [hg]
    simp only [createTaskElement]
    refine ⟨jsMapGet_set_self _ _ _, ⟨_, jsMapGet_set_self _ _ _, rfl, rfl⟩,
      jsMapGet_set_self _ _ _⟩
  · intro total waiting active now st st' m h t hmem nm hnm
    have hdone : syncDone now st' t := by
      by_cases hw : waiting = []
      · subst hw
        rw [updateQueueDisplay_ok_neg total active now st] at h
        simp only [Except.ok.injEq, Prod.mk.injEq] at h
        obtain ⟨hA, _⟩ := h
        subst hA
        exact syncFold_done now active _ t hmem
      · obtain ⟨E, hE⟩ := updateQueueDisplay_ok_entries hw h
        rw [updateQueueDisplay_ok_pos total active now hw hE st] at h
        simp only [Except.ok.injEq, Prod.mk.injEq] at h
        obtain ⟨hA, _⟩ := h
        subst hA
        exact syncFold_done now active _ t hmem
    exact hdone nm hnm

/-- C6, witness: the synthesis step at a concrete unregistered active entry,
and the extract pipeline's no-op on a concrete snapshot. -/
theorem c6_witness :
    (jsMapGet (syncActiveStep 100 initSt
        { id := some "a1", filename := some "a.7z" }).activeTasks
        (some "a1") = some 0 ∧
     (∃ e, jsMapGet (syncActiveStep 100 initSt
        { id := some "a1", filename := some "a.7z" }).elems 0 = some e ∧
        e.status = "正在下载..." ∧ e.filename = "a.7z") ∧
     jsMapGet (syncActiveStep 100 initSt
        { id := some "a1", filename := some "a.7z" }).lastUpdateTimes
        (some "a1") = some 100) ∧
    ((updateExtractQueueDisplay 1
        [{ id := some "w", archiveName := some "w.7z" }]
        [{ id := some "e1", filename := some "x.7z" }] initSt).1).activeTasks
      = initSt.activeTasks :=
  ⟨c6_synthesis_download_only.2.1 100 initSt
     { id := some "a1", filename := some "a.7z" } "a.7z" rfl rfl,
   (c6_synthesis_download_only.1 1
     [{ id := some "w", archiveName := some "w.7z" }]
     [{ id := some "e1", filename := some "x.7z" }] initSt).1⟩

/-! ## C10 — filename extraction -/

theorem findFinAux_ne_nil : ∀ {cs r : List Char},
    findFinAux cs = some r → r ≠ [] := by
  intro cs
  induction cs with
  | nil => intro r h; simp [findFinAux] at h
  | cons c rest ih =>
      intro r h
      unfold findFinAux at h
      dsimp only at h
      split at h
      · split at h
        · exact ih h
        · next hrun =>
            simp only [Option.some.injEq] at h
            subst h
            simpa [List.isEmpty_iff] using hrun
      · exact ih h

theorem plusToPct_ne_empty {s : String} (h : s ≠ "") : plusToPct s ≠ "" := by
  intro hx
  unfold plusToPct at hx
  rw [List.asString_eq] at hx
  cases hs : s.toList with
  | nil => exact h (by rw [← String.asString_toList s, hs, String.asString_nil])
  | cons c cs =>
      rw [hs] at hx
      by_cases hc : c = '+' <;> simp [hc] at hx

/-- C10, confirmed: `getFilenameFromBaidupcsLink` returns
`decodeURIComponent` of the captured `&fin=` value with every `+` first
replaced by `%20` (so `+` decodes to a space, as the last two conjuncts
exhibit), returns `null` when no `&fin=` parameter with a nonempty value is
present, and `getFilename` returns `null` for a URL matching neither the
normal-link nor the baidupcs pattern. -/
theorem c10_filename_extraction :
    (∀ (url name : String), findFin url = some name →
       getFilenameFromBaidupcsLink url =
         match jsDecodeURIComponent (plusToPct name) with
         | some d => .ok (some d)
         | none => .error ()) ∧
    (∀ url : String, findFin url = none →
       getFilenameFromBaidupcsLink url = .ok none) ∧
    (∀ url : String, isNormalLink url = false → isBaidupcsLink url = false →
       getFilename url = .ok none) ∧
    plusToPct "+" = "%20" ∧ jsDecodeURIComponent "%20" = some " " := by
  refine ⟨?_, ?_, ?_, rfl, rfl⟩
  · intro url name h
    have hne : name ≠ "" := by
      unfold findFin at h
      cases hf : findFinAux url.toList with
      | none => rw [hf] at h; cases h
      | some r =>
          rw [hf] at h
          simp only [Option.map, Option.some.injEq] at h
          subst h
          have hr := findFinAux_ne_nil hf
          intro hx
          rw [List.asString_eq] at hx
          exact hr (by simpa using hx)
    unfold getFilenameFromBaidupcsLink
    rw [h]
    dsimp only
    rw [if_pos (plusToPct_ne_empty hne)]
  · intro url h
    unfold getFilenameFromBaidupcsLink
    rw [h]
  · intro url h1 h2
    unfold getFilename
    simp [h1, h2]

/-- C10, witness: the extraction on a concrete baidupcs URL with a `+` in
its `&fin=` value, and the `null` dispatch on a concrete unrelated URL. -/
theorem c10_witness :
    getFilenameFromBaidupcsLink
        "https://d.baidupcs.com/file/abc?x=1&fin=map+1.7z&y=2"
      = .ok (some "map 1.7z") ∧
    getFilename "https://example.com/other" = .ok none := by
  constructor
  · have h := c10_filename_extraction.1
      "https://d.baidupcs.com/file/abc?x=1&fin=map+1.7z&y=2" "map+1.7z" rfl
    rw [h]
    rfl
  · exact c10_filename_extraction.2.2.1 "https://example.com/other" rfl rfl

end NMD
